import Mathlib

/-!
Verification of the `awesome_agent_logic` agent core
(`src/llm/awesome_agent_logic/agent.py` and `src/llm/awesome_agent_logic/tools.py`).

The Python code is shallowly embedded:

* JSON / Python values are modelled by `JValue` (`json.loads` results, action
  parameters, repository records).  Python `dict`s are association lists that
  keep insertion order, like CPython dicts.
* All external collaborators (the language model, the GitHub API, the web
  search gateways) are oracle parameters: their raw replies are inputs of the
  embedded functions.  `Option String` oracles use `none` for a raised
  exception inside the collaborator call.
* Python exceptions that escape an embedded function are modelled with
  `PyRes` (`.exn`); exceptions that the source catches locally are folded
  into the corresponding fallback value, exactly as the `except` blocks do.
* `math.log` is an abstract parameter `log : ℚ → ℚ` (a float-valued function
  of which the proofs use nothing), and the wall clock `datetime.utcnow()` is
  an integer parameter `now` (seconds since the epoch).
-/

/-- JSON/Python values as produced by `json.loads` and threaded through the
agent: `null`/`None`, booleans, numbers, strings, lists and (insertion
ordered) dicts. -/
inductive JValue where
  | null
  | bool (b : Bool)
  | num (q : ℚ)
  | str (s : String)
  | arr (xs : List JValue)
  | obj (fs : List (String × JValue))
deriving Repr

mutual

/-- Python `==` on `JValue`s (computable structural equality). -/
def jeq : JValue → JValue → Bool
  | .null, .null => true
  | .bool a, .bool b => a == b
  | .num a, .num b => a == b
  | .str a, .str b => a == b
  | .arr a, .arr b => jeqL a b
  | .obj a, .obj b => jeqO a b
  | _, _ => false

def jeqL : List JValue → List JValue → Bool
  | [], [] => true
  | x :: xs, y :: ys => jeq x y && jeqL xs ys
  | _, _ => false

def jeqO : List (String × JValue) → List (String × JValue) → Bool
  | [], [] => true
  | (k1, v1) :: xs, (k2, v2) :: ys => k1 == k2 && jeq v1 v2 && jeqO xs ys
  | _, _ => false

end

/-- Python truthiness of a `JValue`: `None`, `False`, `0`, `""`, `[]`, and
an empty dict are falsy, everything else is truthy. -/
def jTruthy : JValue → Bool
  | .null => false
  | .bool b => b
  | .num q => q != 0
  | .str s => !s.isEmpty
  | .arr xs => !xs.isEmpty
  | .obj fs => !fs.isEmpty

def JValue.isStr : JValue → Bool
  | .str _ => true
  | _ => false

def JValue.isObj : JValue → Bool
  | .obj _ => true
  | _ => false

/-- `d.get(k)` on a Python dict: value of the first binding of `k`, if any. -/
def dGet (fs : List (String × JValue)) (k : String) : Option JValue :=
  match fs.find? (fun kv => kv.1 == k) with
  | some kv => some kv.2
  | _ => none

/-- `d.get(k, dflt)` on a Python dict. -/
def dGetD (fs : List (String × JValue)) (k : String) (dflt : JValue) : JValue :=
  match dGet fs k with
  | some v => v
  | _ => dflt

/-- `k in d` on a Python dict. -/
def hasKey (k : String) (fs : List (String × JValue)) : Bool :=
  (dGet fs k).isSome

/-- Python `d[k] = v`: overwrite an existing binding in place, or append a
new binding at the end (CPython insertion-order semantics). -/
def setKey : List (String × JValue) → String → JValue → List (String × JValue)
  | [], k, v => [(k, v)]
  | (k0, v0) :: rest, k, v =>
      if k0 == k then (k, v) :: rest else (k0, v0) :: setKey rest k v

/-- Python `int` / `float` view of a value (`bool` is an `int` in Python);
`none` means arithmetic on the value raises `TypeError`. -/
def asPyNum : JValue → Option ℚ
  | .num q => some q
  | .bool b => some (if b then 1 else 0)
  | _ => none

/-! ### Character-list string utilities

All text processing is phrased over `List Char` (`String.data`) so that
concrete inputs evaluate inside the kernel. -/

/-- Does `pat` occur at the start of `cs`? -/
def listStarts : List Char → List Char → Bool
  | [], _ => true
  | _ :: _, [] => false
  | p :: ps, c :: cs => p == c && listStarts ps cs

/-- Does `pat` occur at offset `i` of `cs`? -/
def subAt (pat cs : List Char) (i : Nat) : Bool :=
  listStarts pat (cs.drop i)

/-- Does `pat` occur anywhere in `cs`? -/
def hasSub (pat cs : List Char) : Bool :=
  (List.range (cs.length + 1)).any (subAt pat cs)

/-- Python `str.replace(pat, repl)`: non-overlapping, left-to-right (callers
only use non-empty patterns).  Structural recursion on fuel so that concrete
inputs reduce in the kernel; `listReplace` supplies fuel `≥ length`, which is
always enough because each step consumes at least one character. -/
def listReplaceGo (pat repl : List Char) : Nat → List Char → List Char
  | 0, l => l
  | _ + 1, [] => []
  | fuel + 1, c :: cs =>
      if listStarts pat (c :: cs) && !pat.isEmpty then
        repl ++ listReplaceGo pat repl fuel (cs.drop (pat.length - 1))
      else
        c :: listReplaceGo pat repl fuel cs

def listReplace (pat repl l : List Char) : List Char :=
  listReplaceGo pat repl l.length l

/-- Python whitespace for `str.strip()` (the characters stripped by default). -/
def isPyWs (c : Char) : Bool :=
  c == ' ' || c == '\t' || c == '\n' || c == '\r' || c == '\x0b' || c == '\x0c'

/-- Python `str.strip()`. -/
def listStrip (cs : List Char) : List Char :=
  ((cs.dropWhile isPyWs).reverse.dropWhile isPyWs).reverse

/-- Python `str.removeprefix`. -/
def dropPfx (pat cs : List Char) : List Char :=
  if listStarts pat cs then cs.drop pat.length else cs

/-- Python `str.removesuffix`. -/
def dropSfx (pat cs : List Char) : List Char :=
  if listStarts pat.reverse cs.reverse then (cs.reverse.drop pat.length).reverse else cs

/-! ### A model of `json.loads`

A recursive-descent parser for JSON (RFC 8259 syntax as accepted by Python's
`json.loads` with default options; the non-finite extensions `NaN`/`Infinity`
have no rational counterpart and are treated as parse failures, and integer
and float literals both become `.num`).  Fuel is structural; `jsonParse`
supplies enough fuel for any input, so `none` means `json.JSONDecodeError`. -/

/-- JSON whitespace accepted between tokens by `json.loads`. -/
def isJsonWs (c : Char) : Bool :=
  c == ' ' || c == '\t' || c == '\n' || c == '\r'

def skipJsonWs : List Char → List Char
  | [] => []
  | c :: cs => if isJsonWs c then skipJsonWs cs else c :: cs

def hexVal (c : Char) : Option Nat :=
  if '0' ≤ c && c ≤ '9' then some (c.toNat - 48)
  else if 'a' ≤ c && c ≤ 'f' then some (c.toNat - 87)
  else if 'A' ≤ c && c ≤ 'F' then some (c.toNat - 55)
  else none

/-- Parse the body of a JSON string literal (after the opening quote). -/
def parseJStr : Nat → List Char → List Char → Option (String × List Char)
  | 0, _, _ => none
  | _ + 1, [], _ => none
  | fuel + 1, c :: cs, acc =>
      if c == '"' then some (⟨acc.reverse⟩, cs)
      else if c == '\\' then
        match cs with
        | [] => none
        | e :: rest =>
            if e == '"' then parseJStr fuel rest ('"' :: acc)
            else if e == '\\' then parseJStr fuel rest ('\\' :: acc)
            else if e == '/' then parseJStr fuel rest ('/' :: acc)
            else if e == 'b' then parseJStr fuel rest ('\x08' :: acc)
            else if e == 'f' then parseJStr fuel rest ('\x0c' :: acc)
            else if e == 'n' then parseJStr fuel rest ('\n' :: acc)
            else if e == 'r' then parseJStr fuel rest ('\r' :: acc)
            else if e == 't' then parseJStr fuel rest ('\t' :: acc)
            else if e == 'u' then
              match rest with
              | h1 :: h2 :: h3 :: h4 :: rest2 =>
                  match hexVal h1, hexVal h2, hexVal h3, hexVal h4 with
                  | some a, some b, some c2, some d =>
                      let n := ((a * 16 + b) * 16 + c2) * 16 + d
                      if h : n.isValidChar then
                        parseJStr fuel rest2 (Char.ofNatAux n h :: acc)
                      else
                        -- lone surrogates: json.loads keeps them; we refuse
                        -- (no such input appears in this development)
                        none
                  | _, _, _, _ => none
              | _ => none
            else none
      else if c.toNat < 32 then none  -- strict mode rejects raw control chars
      else parseJStr fuel cs (c :: acc)

/-- Digit run value. -/
def digitsVal (ds : List Char) : Nat :=
  ds.foldl (fun acc c => acc * 10 + (c.toNat - 48)) 0

/-- Parse a JSON number.  Integer literals reduce without any `ℚ`
arithmetic (plain `Int → ℚ` cast); fractions/exponents use `ℚ` division. -/
def parseJNum (cs : List Char) : Option (ℚ × List Char) :=
  let (neg, cs1) :=
    match cs with
    | '-' :: rest => (true, rest)
    | _ => (false, cs)
  let (ds, cs2) := cs1.span Char.isDigit
  match ds with
  | [] => none
  | '0' :: _ :: _ => none   -- leading zeros are not valid JSON
  | _ =>
    let intPart : Nat := digitsVal ds
    let (fracDs, cs3) :=
      match cs2 with
      | '.' :: rest =>
          let (fd, r2) := rest.span Char.isDigit
          (some fd, r2)
      | _ => (none, cs2)
    match fracDs with
    | some [] => none
    | _ =>
      let (expPart, cs4) :=
        match cs3 with
        | e :: rest =>
            if e == 'e' || e == 'E' then
              let (esign, r1) :=
                match rest with
                | '+' :: r => (1, r)
                | '-' :: r => (-1, r)
                | _ => ((1 : Int), rest)
              let (ed, r2) := r1.span Char.isDigit
              if ed.isEmpty then (none, cs)
              else (some (esign * (digitsVal ed : Int)), r2)
            else (some 0, cs3)
        | [] => (some 0, cs3)
      match expPart with
      | none => none
      | some ex =>
        let signI : Int := if neg then -1 else 1
        let base : ℚ :=
          match fracDs with
          | none => ((signI * (intPart : Int) : Int) : ℚ)
          | some fd =>
              (signI : ℚ) * ((intPart : ℚ) + (digitsVal fd : ℚ) / ((10 : ℚ) ^ fd.length))
        let q : ℚ :=
          if ex = 0 then base
          else if ex > 0 then base * (10 : ℚ) ^ ex.toNat
          else base / (10 : ℚ) ^ (-ex).toNat
        some (q, cs4)

mutual

def parseJVal : Nat → List Char → Option (JValue × List Char)
  | 0, _ => none
  | fuel + 1, cs =>
      match skipJsonWs cs with
      | [] => none
      | c :: rest =>
          if c == 'n' then
            if listStarts ['u', 'l', 'l'] rest then some (.null, rest.drop 3) else none
          else if c == 't' then
            if listStarts ['r', 'u', 'e'] rest then some (.bool true, rest.drop 3) else none
          else if c == 'f' then
            if listStarts ['a', 'l', 's', 'e'] rest then some (.bool false, rest.drop 4) else none
          else if c == '"' then
            match parseJStr (rest.length + 1) rest [] with
            | some (s, rest2) => some (.str s, rest2)
            | _ => none
          else if c == '[' then
            parseJArr fuel rest
          else if c == '{' then
            parseJObj fuel rest
          else
            match parseJNum (c :: rest) with
            | some (q, rest2) => some (.num q, rest2)
            | _ => none

/-- After `[`: either `]` or a comma-separated item list. -/
def parseJArr : Nat → List Char → Option (JValue × List Char)
  | 0, _ => none
  | fuel + 1, cs =>
      match skipJsonWs cs with
      | ']' :: rest => some (.arr [], rest)
      | cs2 =>
          match parseJVal fuel cs2 with
          | some (v, rest) => parseJArrRest fuel rest [v]
          | _ => none

def parseJArrRest : Nat → List Char → List JValue → Option (JValue × List Char)
  | 0, _, _ => none
  | fuel + 1, cs, acc =>
      match skipJsonWs cs with
      | ']' :: rest => some (.arr acc.reverse, rest)
      | ',' :: rest =>
          match parseJVal fuel rest with
          | some (v, rest2) => parseJArrRest fuel rest2 (v :: acc)
          | _ => none
      | _ => none

/-- After `{`: either `}` or comma-separated `"key": value` pairs (later
duplicate keys overwrite earlier ones in place, like Python dicts). -/
def parseJObj : Nat → List Char → Option (JValue × List Char)
  | 0, _ => none
  | fuel + 1, cs =>
      match skipJsonWs cs with
      | '}' :: rest => some (.obj [], rest)
      | cs2 =>
          match parseJPair fuel cs2 with
          | some (k, v, rest) => parseJObjRest fuel rest [(k, v)]
          | _ => none

def parseJObjRest : Nat → List Char → List (String × JValue) →
    Option (JValue × List Char)
  | 0, _, _ => none
  | fuel + 1, cs, acc =>
      match skipJsonWs cs with
      | '}' :: rest =>
          some (.obj (acc.reverse.foldl (fun d kv => setKey d kv.1 kv.2) []), rest)
      | ',' :: rest =>
          match parseJPair fuel rest with
          | some (k, v, rest2) => parseJObjRest fuel rest2 ((k, v) :: acc)
          | _ => none
      | _ => none

def parseJPair : Nat → List Char → Option (String × JValue × List Char)
  | 0, _ => none
  | fuel + 1, cs =>
      match skipJsonWs cs with
      | '"' :: rest =>
          match parseJStr (rest.length + 1) rest [] with
          | some (k, rest2) =>
              match skipJsonWs rest2 with
              | ':' :: rest3 =>
                  match parseJVal fuel rest3 with
                  | some (v, rest4) => some (k, v, rest4)
                  | _ => none
              | _ => none
          | _ => none
      | _ => none

end

/-- Model of `json.loads`: parse one JSON value, allow trailing whitespace
only.  `none` models `json.JSONDecodeError`. -/
def jsonParse (s : String) : Option JValue :=
  let cs := s.data
  match parseJVal (4 * cs.length + 8) cs with
  | some (v, rest) => if (skipJsonWs rest).isEmpty then some v else none
  | _ => none

/-! ### Response Interpreter: `AwesomeAgentLogic._try_parse_json_from_llm_response`

The layered recovery pipeline.  Regular expressions are modelled by direct
leftmost-match scans with the same backtracking semantics as Python's `re`
for the three concrete patterns the source uses. -/

/-- Strategy 2's pattern `(\{.*\})` with `re.DOTALL`: the span from the first
`{` to the last `}` after it, if any. -/
def m2span (cs : List Char) : Option (List Char) :=
  match cs.findIdx? (· == '{'), cs.reverse.findIdx? (· == '}') with
  | some i, some jr =>
      let j := cs.length - 1 - jr
      if i < j then some ((cs.drop i).take (j - i + 1)) else none
  | _, _ => none

/-- Strategy 3's pattern at one start position: after the `{` at `i`, greedy
`[^{]*` picks the largest offset `k` at which the literal `"action"` occurs
with no `{` in between, and `[^}]*\}` then ends the match at the first `}`
after the literal. -/
def m3At (cs : List Char) (i : Nat) : Option (List Char) :=
  let t := cs.drop (i + 1)
  let ok := fun k =>
    !((t.take k).contains '{') && subAt "\"action\"".data t k &&
      (t.drop (k + 8)).contains '}'
  match ((List.range (t.length + 1)).filter ok).getLast? with
  | some k =>
      match (t.drop (k + 8)).findIdx? (· == '}') with
      | some j => some ('{' :: t.take (k + 8 + j + 1))
      | _ => none
  | _ => none

/-- Strategy 3's pattern `(\{[^{]*"action"[^}]*\})`: leftmost match. -/
def m3Extract (cs : List Char) : Option (List Char) :=
  (List.range cs.length).findSome? fun i =>
    if cs.getD i ' ' == '{' then m3At cs i else none

/-- Strategy 4's repair: `.replace('{{', '{').replace('}}', '}')`. -/
def fixBraces (cs : List Char) : List Char :=
  listReplace "\x7d\x7d".data "\x7d".data (listReplace "\x7b\x7b".data "\x7b".data cs)

/-- `\s` of Python's `re` (the ASCII whitespace class; the agent's prompts
and replies never hinge on the unicode extras). -/
def regexWsChar (c : Char) : Bool :=
  c == ' ' || c == '\t' || c == '\n' || c == '\r' || c == '\x0c' || c == '\x0b'

/-- Leftmost match of `KEY\s*:\s*"([^"]+)"` where `KEY` is a quoted literal
key: strategy 5's extraction of the `action` / `reasoning` string values. -/
def m5StrVal (key cs : List Char) : Option (List Char) :=
  (List.range (cs.length + 1)).findSome? fun i =>
    if subAt key cs i then
      match (cs.drop (i + key.length)).dropWhile regexWsChar with
      | ':' :: t2 =>
          match t2.dropWhile regexWsChar with
          | '"' :: t3 =>
              let content := t3.takeWhile (· != '"')
              if content.isEmpty then none
              else
                match t3.dropWhile (· != '"') with
                | '"' :: _ => some content
                | _ => none
          | _ => none
      | _ => none
    else none

/-- Leftmost match of `"params"\s*:\s*(\{[^}]*\})`: strategy 5's params
span. -/
def m5ParamsSpan (cs : List Char) : Option (List Char) :=
  (List.range (cs.length + 1)).findSome? fun i =>
    if subAt "\"params\"".data cs i then
      match (cs.drop (i + 8)).dropWhile regexWsChar with
      | ':' :: t2 =>
          match t2.dropWhile regexWsChar with
          | '{' :: t3 =>
              let inner := t3.takeWhile (· != '}')
              match t3.dropWhile (· != '}') with
              | '}' :: _ => some ('{' :: (inner ++ ['}']))
              | _ => none
          | _ => none
      | _ => none
    else none

/-- Strategy 5: assemble a synthetic decision from independently extracted
fragments. -/
def m5Build (cs : List Char) : Option JValue :=
  match m5StrVal "\"action\"".data cs with
  | some act =>
      let params : JValue :=
        match m5ParamsSpan cs with
        | some ps =>
            match jsonParse ⟨fixBraces ps⟩ with
            | some v => v
            | _ => .obj []
        | _ => .obj []
      let reasoning : String :=
        match m5StrVal "\"reasoning\"".data cs with
        | some r => ⟨r⟩
        | _ => "通过正则表达式提取的决策"
      some (.obj [("action", .str ⟨act⟩), ("params", params),
                  ("reasoning", .str reasoning)])
  | _ => none

/-- Strategy 6's hardcoded decision after `GENERATE_KEYWORDS`. -/
def m6AfterKeywords : JValue :=
  .obj [("action", .str "SEARCH_GITHUB"), ("params", .obj []),
        ("reasoning", .str "关键词已生成，需要执行GitHub搜索")]

/-- Strategy 6's hardcoded decision after `SEARCH_GITHUB`. -/
def m6AfterSearch : JValue :=
  .obj [("action", .str "CALCULATE_SCORES"), ("params", .obj []),
        ("reasoning", .str "GitHub搜索已完成，需要计算仓库评分")]

/-- The code-fence cleanup at the top of the interpreter:
`text.replace('```json', '').replace('```', '')`. -/
def cleanLLMText (text : String) : List Char :=
  listReplace "```".data [] (listReplace "```json".data [] text.data)

/-- `AwesomeAgentLogic._try_parse_json_from_llm_response(text)`.
`la` is `self.last_action` (strategy 6 reads it); the result is the parsed
value — any JSON value a strategy produced, or `{}` when everything fails. -/
def tryParse (la : Option JValue) (text : String) : JValue :=
  let cleaned := cleanLLMText text
  -- strategy 1: parse the whole cleaned text
  match jsonParse ⟨cleaned⟩ with
  | some v => v
  | none =>
  -- strategy 2: first `{` through last `}`
  match (m2span cleaned).bind (fun sub => jsonParse ⟨sub⟩) with
  | some v => v
  | none =>
  -- strategy 3: smallest span holding the key `action`
  match (m3Extract cleaned).bind (fun sub => jsonParse ⟨sub⟩) with
  | some v => v
  | none =>
  -- strategy 4: collapse doubled braces and re-parse
  match jsonParse ⟨fixBraces cleaned⟩ with
  | some v => v
  | none =>
  -- strategy 5: regex-extract the fragments independently
  match m5Build cleaned with
  | some v => v
  | none =>
  -- strategy 6: hardcoded transition from the last executed action
  match la with
  | some v =>
      if jTruthy v && jeq v (.str "GENERATE_KEYWORDS") then m6AfterKeywords
      else if jTruthy v && jeq v (.str "SEARCH_GITHUB") then m6AfterSearch
      else .obj []
  | none => .obj []

/-! ### `datetime.strptime(_, "%Y-%m-%dT%H:%M:%SZ")` and day arithmetic

CPython's `_strptime` matches `%Y` as exactly four digits and the other
fields as one or two digits, validating ranges (including month lengths and
leap years) when the `datetime` is built.  The blank-padded day alternative
(`" 7"`) never occurs in repository timestamps and is not modelled. -/

structure PyDateTime where
  year : Nat
  month : Nat
  day : Nat
  hour : Nat
  minute : Nat
  second : Nat
deriving DecidableEq, Repr

def isLeapYear (y : Nat) : Bool :=
  y % 4 == 0 && (y % 100 != 0 || y % 400 == 0)

def daysInMonth (y m : Nat) : Nat :=
  if m == 2 then (if isLeapYear y then 29 else 28)
  else if m == 4 || m == 6 || m == 9 || m == 11 then 30
  else 31

/-- A maximal digit run of length between 1 and `maxLen` (field + rest). -/
def grabDigits (maxLen : Nat) (cs : List Char) : Option (Nat × List Char) :=
  let ds := cs.takeWhile Char.isDigit
  if ds.isEmpty || ds.length > maxLen then none
  else some (digitsVal ds, cs.drop ds.length)

def expectChar (c : Char) : List Char → Option (List Char)
  | [] => none
  | x :: xs => if x == c then some xs else none

/-- `datetime.strptime(s, "%Y-%m-%dT%H:%M:%SZ")`; `none` models the
`ValueError` raised on a mismatch or out-of-range component. -/
def parseTimestamp (s : String) : Option PyDateTime :=
  let cs := s.data
  let ds := cs.takeWhile Char.isDigit
  if ds.length != 4 then none
  else
    let y := digitsVal ds
    match expectChar '-' (cs.drop 4) with
    | none => none
    | some r1 =>
      match grabDigits 2 r1 with
      | none => none
      | some (mo, r2) =>
        match expectChar '-' r2 with
        | none => none
        | some r3 =>
          match grabDigits 2 r3 with
          | none => none
          | some (d, r4) =>
            match expectChar 'T' r4 with
            | none => none
            | some r5 =>
              match grabDigits 2 r5 with
              | none => none
              | some (h, r6) =>
                match expectChar ':' r6 with
                | none => none
                | some r7 =>
                  match grabDigits 2 r7 with
                  | none => none
                  | some (mi, r8) =>
                    match expectChar ':' r8 with
                    | none => none
                    | some r9 =>
                      match grabDigits 2 r9 with
                      | none => none
                      | some (se, r10) =>
                        match expectChar 'Z' r10 with
                        | none => none
                        | some r11 =>
                          if r11.isEmpty && 1 ≤ y && 1 ≤ mo && mo ≤ 12 &&
                              1 ≤ d && d ≤ daysInMonth y mo &&
                              h ≤ 23 && mi ≤ 59 && se ≤ 59 then
                            some ⟨y, mo, d, h, mi, se⟩
                          else none

/-- Days from 1970-01-01 in the proleptic Gregorian calendar
(Howard Hinnant's `days_from_civil`, matching `datetime.toordinal` up to the
epoch offset). -/
def daysFromCivil (y m d : Int) : Int :=
  let y2 := if m ≤ 2 then y - 1 else y
  let era : Int := Int.tdiv (if 0 ≤ y2 then y2 else y2 - 399) 400
  let yoe := y2 - era * 400
  let mp := (m + 9) % 12
  let doy := (153 * mp + 2) / 5 + d - 1
  let doe := yoe * 365 + yoe / 4 - yoe / 100 + doy
  era * 146097 + doe - 719468

/-- A `datetime` as seconds since the epoch. -/
def dtSecs (dt : PyDateTime) : Int :=
  daysFromCivil dt.year dt.month dt.day * 86400 +
    dt.hour * 3600 + dt.minute * 60 + dt.second

/-- `(datetime.utcnow() - pushed_date).days`: `timedelta.days` floors. -/
def daysDiff (now : Int) (dt : PyDateTime) : Int :=
  Int.fdiv (now - dtSecs dt) 86400

/-! ### `GithubTools.calculate_repo_score` -/

/-- The recency step applied once the push date parses (the
`if days_diff <= 30: ... else: 0.05` chain). -/
def recencyFor (d : Int) : ℚ :=
  if d ≤ 30 then 1
  else if d ≤ 180 then 8/10
  else if d ≤ 365 then 1/2
  else if d ≤ 730 then 1/5
  else 1/20

/-- `GithubTools.calculate_repo_score(repo)`.

`log` models `math.log` and `now` models `datetime.utcnow()` (in seconds).
Mirrors the source exactly: `stars`/`forks` fall back to
`stargazers_count`/`forks_count` through Python `or`; the recency default
`0.1` applies only when `pushed_at` is falsy; a `pushed_at` value that is
truthy but fails `strptime` raises inside the `try` block, so the
`except` handler returns `0.0` — likewise for non-numeric star/fork values
or a `math.log` domain error. -/
def calculate_repo_score (log : ℚ → ℚ) (now : Int) (repo : JValue) : ℚ :=
  match repo with
  | .obj fs =>
      let starsV :=
        if jTruthy (dGetD fs "stars" (.num 0)) then dGetD fs "stars" (.num 0)
        else dGetD fs "stargazers_count" (.num 0)
      let forksV :=
        if jTruthy (dGetD fs "forks" (.num 0)) then dGetD fs "forks" (.num 0)
        else dGetD fs "forks_count" (.num 0)
      let pushedV := dGetD fs "pushed_at" (.str "")
      match asPyNum starsV, asPyNum forksV with
      | some st, some fk =>
          if st + 1 ≤ 0 || fk + 1 ≤ 0 then 0   -- math.log domain error → except → 0.0
          else if !jTruthy pushedV then
            (7/10 * log (st + 1) + 3/10 * log (fk + 1)) * (1/10)
          else
            match pushedV with
            | .str ts =>
                match parseTimestamp ts with
                | some dt =>
                    (7/10 * log (st + 1) + 3/10 * log (fk + 1)) *
                      recencyFor (daysDiff now dt)
                | none => 0    -- strptime ValueError → except → 0.0
            | _ => 0           -- strptime TypeError on a non-string → 0.0
      | _, _ => 0              -- stars + 1 raises TypeError → 0.0
  | _ => 0                     -- repo.get raises AttributeError → 0.0

/-- The normalized candidate record built by `CALCULATE_SCORES` in
`AwesomeAgentLogic._execute_action` (string-valued descriptive fields,
numeric star and fork counts). -/
def repoRecordFs (u n fn de : String) (stars forks : ℕ) (ts lang : String) :
    List (String × JValue) :=
  [("url", .str u), ("name", .str n), ("full_name", .str fn),
   ("description", .str de), ("stars", .num stars), ("forks", .num forks),
   ("pushed_at", .str ts), ("language", .str lang)]

/-! ### Work state and decision engine -/

/-- The `state` dict created in `AwesomeAgentLogic.run`.  All keys are
initialized there except `web_queries`, which is first created by a
`GENERATE_WEB_QUERIES` update (hence the `Option`). -/
structure AgentState where
  domain : String
  keywords : List JValue
  github_repos : List JValue
  web_queries : Option (List JValue)
  web_search_results : List JValue
  candidate_repos : List JValue
  ranked_repos : List JValue
  final_report : String

def initState (domain : String) : AgentState :=
  ⟨domain, [], [], none, [], [], [], ""⟩

/-- A `self.history` entry appended by the orchestration loop. -/
structure HistEntry where
  action : JValue
  params : JValue
  result_summary : String

/-- Result of a Python call that may raise an exception that escapes it. -/
inductive PyRes (α : Type) where
  | ok (val : α)
  | exn
deriving Repr

/-- Truthiness of the `web_queries` entry (`state.get("web_queries")`). -/
def wqTruthy (s : AgentState) : Bool :=
  match s.web_queries with
  | some l => !l.isEmpty
  | none => false

/-- `', '.join(keywords[:5])` in `_format_state_summary` raises `TypeError`
on a non-string keyword, and the ranked-repo preview raises
`AttributeError` on a non-dict entry; both run before the `try` block of
`_decide_next_action`, so they escape it. -/
def summaryRaises (s : AgentState) : Bool :=
  (!s.keywords.isEmpty && (s.keywords.take 5).any (fun j => !j.isStr)) ||
    (!s.ranked_repos.isEmpty && (s.ranked_repos.take 3).any (fun j => !j.isObj))

/-- `_format_history_summary` raises `AttributeError` (`params.items()`) on
an entry whose recorded params are truthy but not a dict; it also runs
before the `try` block of `_decide_next_action`. -/
def historyRaises (h : List HistEntry) : Bool :=
  h.any (fun e => jTruthy e.params && !e.params.isObj)

/-- The deterministic fallback decision tree of `_decide_next_action`
(the `elif` chain after the `except`).  `.ok none` models the implicit
`return None` reached when the fifth rule fires but the first web result is
a dict without a `"url"` key; `.exn` models the `TypeError` of `"url" in
web_results[0]` (a non-container head) or of indexing a non-dict head. -/
def fallbackDecision (s : AgentState) : PyRes (Option (JValue × JValue)) :=
  if s.keywords.isEmpty then
    .ok (some (.str "GENERATE_KEYWORDS", .obj []))
  else if s.github_repos.isEmpty && !s.keywords.isEmpty then
    .ok (some (.str "SEARCH_GITHUB", .obj [("keywords", .arr s.keywords)]))
  else if !wqTruthy s && !s.keywords.isEmpty then
    .ok (some (.str "GENERATE_WEB_QUERIES", .obj []))
  else if s.web_search_results.isEmpty && wqTruthy s then
    match s.web_queries with
    | some (q :: _) => .ok (some (.str "SEARCH_WEB", .obj [("query", q)]))
    | _ =>
        .ok (some (.str "SEARCH_WEB",
          .obj [("query", .str ("best github repositories for " ++ s.domain))]))
  else if !s.web_search_results.isEmpty && s.candidate_repos.isEmpty then
    match s.web_search_results with
    | [] => .ok none
    | w :: _ =>
        match w with
        | .obj fs =>
            if hasKey "url" fs then
              .ok (some (.str "EXTRACT_GITHUB_LINKS",
                .obj [("url", dGetD fs "url" .null)]))
            else .ok none
        | .arr xs => if xs.any (fun v => jeq v (.str "url")) then .exn else .ok none
        | .str t => if hasSub "url".data t.data then .exn else .ok none
        | _ => .exn
  else if (!s.github_repos.isEmpty || !s.candidate_repos.isEmpty) &&
      s.ranked_repos.isEmpty then
    .ok (some (.str "CALCULATE_SCORES", .obj []))
  else if !s.ranked_repos.isEmpty && s.final_report == "" then
    .ok (some (.str "GENERATE_REPORT", .obj []))
  else
    .ok (some (.str "COMPLETE", .obj []))

/-- The `if decision and "action" in decision` check followed by the
`GENERATE_REPORT` validation inside `_decide_next_action`'s `try`.  A parsed
value that is not a truthy dict with an `action` key either fails the check
or raises inside the `try` (string membership, `.get` on a non-dict);
both routes reach the fallback, hence `none`. -/
def validateDecision (s : AgentState) (decision : JValue) : Option (JValue × JValue) :=
  match decision with
  | .obj fs =>
      if !fs.isEmpty && hasKey "action" fs then
        let action := dGetD fs "action" (.str "")
        let params := dGetD fs "params" (.obj [])
        if !jeq action (.str "GENERATE_REPORT") || !s.ranked_repos.isEmpty then
          some (action, params)
        else none
      else none
  | _ => none

/-- `AwesomeAgentLogic._decide_next_action(domain, state)`.

`resp` is the raw content of the model reply (`none` when `llm.invoke`
raises — the `except` path), `la` is `self.last_action` and `h` is
`self.history` (both read while the prompt is being prepared). -/
def decideNextAction (s : AgentState) (h : List HistEntry) (resp : Option String)
    (la : Option JValue) : PyRes (Option (JValue × JValue)) :=
  if summaryRaises s || historyRaises h then .exn
  else
    match resp with
    | some content =>
        match validateDecision s (tryParse la content) with
        | some r => .ok (some r)
        | none => fallbackDecision s
    | none => fallbackDecision s

/-- The nine enumerated actions offered by the decision prompt. -/
def nineActionNames : List String :=
  ["GENERATE_KEYWORDS", "SEARCH_GITHUB", "GENERATE_WEB_QUERIES", "SEARCH_WEB",
   "EXTRACT_GITHUB_LINKS", "GET_REPO_DETAILS", "CALCULATE_SCORES",
   "GENERATE_REPORT", "COMPLETE"]

def isEnumAction (a : JValue) : Bool :=
  nineActionNames.any (fun nm => jeq a (.str nm))

/-! ### Tool layer (`tools.py`)

Network calls are oracle inputs; the repository-side massaging around them
is embedded. -/

/-- The code-fence cleanup in `LLMTools.generate_keywords` /
`generate_web_queries`: `strip`, then `removeprefix` + `removesuffix`. -/
def pyCleanFenced (r : String) : String :=
  let c := listStrip r.data
  let c2 :=
    if listStarts "```json".data c then dropSfx "```".data (dropPfx "```json".data c)
    else if listStarts "```".data c then dropSfx "```".data (dropPfx "```".data c)
    else c
  ⟨c2⟩

/-- The hardcoded keyword fallback of `LLMTools.generate_keywords`. -/
def defaultKeywords : List JValue :=
  [.str "awesome repositories", .str "tutorial", .str "guide",
   .str "examples", .str "resources"]

/-- `LLMTools.generate_keywords(domain, llm)`: parse the model reply as a
JSON list; on any failure (invoke raised, parse failed, not a list) return
the default keywords. -/
def generate_keywords (llmOut : Option String) : List JValue :=
  match llmOut with
  | some r =>
      match jsonParse (pyCleanFenced r) with
      | some (.arr xs) => xs
      | _ => defaultKeywords
  | none => defaultKeywords

/-- The hardcoded query fallback of `LLMTools.generate_web_queries`. -/
def defaultWebQueries (domain : String) : List JValue :=
  [.str ("best github repositories for " ++ domain),
   .str ("top " ++ domain ++ " projects on github"),
   .str ("recommended " ++ domain ++ " libraries github")]

/-- `LLMTools.generate_web_queries(domain, llm)`. -/
def generate_web_queries (domain : String) (llmOut : Option String) : List JValue :=
  match llmOut with
  | some r =>
      match jsonParse (pyCleanFenced r) with
      | some (.arr xs) => xs
      | _ => defaultWebQueries domain
  | none => defaultWebQueries domain

/-- Python `str()` as used by f-strings in the report/summary text (the
rendering of containers is abbreviated: no claim inspects it). -/
def pyStr : JValue → String
  | .str s => s
  | .num q => if q.den = 1 then toString q.num else toString q.num ++ "/" ++ toString q.den
  | .null => "None"
  | .bool b => if b then "True" else "False"
  | .arr _ => "[...]"
  | .obj _ => "\x7b...\x7d"

def zeroPad (w : Nat) (n : Nat) : String :=
  let s := toString n
  ⟨List.replicate (w - s.length) '0' ++ s.data⟩

/-- `date.strftime("%Y年%m月%d日")` applied after a successful re-parse of
`pushed_at`; an unparseable value keeps its original rendering
(`except: pass`). -/
def formatPushed (v : JValue) : String :=
  match v with
  | .str ts =>
      match parseTimestamp ts with
      | some dt => zeroPad 4 dt.year ++ "年" ++ zeroPad 2 dt.month ++ "月" ++
          zeroPad 2 dt.day ++ "日"
      | none => ts
  | _ => pyStr v

/-- One repository section of the backup report in
`LLMTools.generate_final_report`'s `except` handler. -/
def fallbackReportEntry (i : Nat) (repo : List (String × JValue)) : String :=
  "## " ++ toString i ++ ". " ++ pyStr (dGetD repo "full_name" (.str "Unknown")) ++ "\n\n" ++
  "**链接**: " ++ pyStr (dGetD repo "url" (.str "")) ++ "\n\n" ++
  "**描述**: " ++ pyStr (dGetD repo "description" (.str "")) ++ "\n\n" ++
  "**核心指标**: ⭐ " ++ pyStr (dGetD repo "stars" (.num 0)) ++ " | 🍴 " ++
    pyStr (dGetD repo "forks" (.num 0)) ++ " | 📅 " ++
    formatPushed (dGetD repo "pushed_at" (.str "")) ++ "\n\n" ++
  "**主要语言**: " ++ pyStr (dGetD repo "language" (.str "Unknown")) ++ "\n\n---\n\n"

/-- The deterministic backup report built when the model composer call
fails. -/
def buildFallbackReport (repos : List JValue) (domain : String) : String :=
  let header :=
    "# " ++ domain ++ " 领域 GitHub 优质资源推荐\n\n## 简介\n\n本报告为您精选了 " ++
    domain ++
    " 领域中最具价值的GitHub仓库，基于Star数量、Fork数量和更新频率等多维度指标进行评估和排序。\n\n"
  let body :=
    ((repos.take 5).enum.foldl
      (fun acc rv =>
        match rv.2 with
        | .obj fs => acc ++ fallbackReportEntry (rv.1 + 1) fs
        | _ => acc)
      "")
  header ++ body ++ "## 总结\n\n以上就是我们为您精选的 " ++ domain ++
    " 领域优质GitHub资源。这些项目经过精心筛选，涵盖了从入门到进阶的多种资源。希望这份推荐能够帮助您更深入地学习和探索此领域。\n"

/-- `LLMTools.generate_final_report(repos, domain, llm)`.

`llmOut` is the composer chain's reply (`none` when it raises).  The
repository preview text is built from `repos[:5]` before the chain is
invoked, so a non-dict entry raises there, and the `except` handler raises
at the same spot while building the backup report — that double failure
propagates out (`none`).  Otherwise the reply, or the backup report when the
chain raised, is returned. -/
def generate_final_report (llmOut : Option String) (repos : List JValue)
    (domain : String) : Option String :=
  if (repos.take 5).all JValue.isObj then
    some (match llmOut with
          | some rep => rep
          | none => buildFallbackReport repos domain)
  else none

/-! ### `CALCULATE_SCORES` (`_execute_action`, lines 461-539) -/

/-- Normalization of the raw GitHub search items: skip non-dicts and items
with a falsy `html_url`, keep the eight projected fields. -/
def normalizeGithub (items : List JValue) : List (List (String × JValue)) :=
  items.foldl
    (fun acc j =>
      match j with
      | .obj fs =>
          let hu := dGetD fs "html_url" .null
          if jTruthy hu then
            acc ++ [[("url", hu), ("name", dGetD fs "name" (.str "")),
              ("full_name", dGetD fs "full_name" (.str "")),
              ("description", dGetD fs "description" (.str "")),
              ("stars", dGetD fs "stargazers_count" (.num 0)),
              ("forks", dGetD fs "forks_count" (.num 0)),
              ("pushed_at", dGetD fs "pushed_at" (.str "")),
              ("language", dGetD fs "language" (.str ""))]]
          else acc
      | _ => acc)
    []

/-- The candidate-URL pass: skip URLs already present (compared against
`repo.get("url")` with Python `==`), fetch details through the gateway
(`detailsFor`; an empty dict is the gateway's failure value) and keep truthy
dicts that carry a `url` key. -/
def addCandidates (detailsFor : JValue → List (String × JValue))
    (base : List (List (String × JValue))) (urls : List JValue) :
    List (List (String × JValue)) :=
  urls.foldl
    (fun acc u =>
      if acc.any (fun r => jeq (dGetD r "url" .null) u) then acc
      else
        let d := detailsFor u
        if !d.isEmpty && hasKey "url" d then acc ++ [d] else acc)
    base

/-- The sort key `x.get("score", 0)` (every entry just received a numeric
score). -/
def scoreKey (r : List (String × JValue)) : ℚ :=
  match dGetD r "score" (.num 0) with
  | .num q => q
  | _ => 0

/-- Stable descending insertion (the order `list.sort(key=..., reverse=True)`
produces: equal keys keep their original order). -/
def insDesc (x : List (String × JValue)) :
    List (List (String × JValue)) → List (List (String × JValue))
  | [] => [x]
  | y :: ys => if scoreKey y > scoreKey x then y :: insDesc x ys else x :: y :: ys

def sortScoredDesc : List (List (String × JValue)) → List (List (String × JValue))
  | [] => []
  | x :: xs => insDesc x (sortScoredDesc xs)

/-- The whole `CALCULATE_SCORES` branch of `_execute_action`: collect and
normalize candidates, score each (`repo.copy()` plus a `score` key), sort by
descending score, return the top 10. -/
def execCalcScores (log : ℚ → ℚ) (now : Int)
    (detailsFor : JValue → List (String × JValue)) (s : AgentState) :
    List JValue :=
  let cand := addCandidates detailsFor (normalizeGithub s.github_repos) s.candidate_repos
  if cand.isEmpty then []
  else
    let scored := cand.map (fun r => setKey r "score" (.num (calculate_repo_score log now (.obj r))))
    ((sortScoredDesc scored).take 10).map JValue.obj

/-! ### Action execution, state update and the orchestration loop -/

/-- The value classes `_execute_action` actually returns: `None`, a list, a
dict, or a string. -/
inductive ExecRes where
  | pynone
  | list (xs : List JValue)
  | dict (fs : List (String × JValue))
  | strv (s : String)
deriving Repr

/-- Python truthiness of an execution result. -/
def execTruthy : ExecRes → Bool
  | .pynone => false
  | .list xs => !xs.isEmpty
  | .dict fs => !fs.isEmpty
  | .strv s => !s.isEmpty

/-- The per-iteration oracle: replies of the collaborators an iteration may
contact (`none` on an `Option` means the call raised). -/
structure StepOracle where
  llmDecide : Option String
  kwOut : Option String
  wqOut : Option String
  githubSearch : List JValue
  webItems : List (JValue × JValue × JValue)
  linksOut : List String
  detailsFor : JValue → List (String × JValue)
  reportOut : Option String

/-- `WebTools.search_web` output: every result dict is built with the keys
`title`, `url`, `snippet` (both the Tavily and the DuckDuckGo branch). -/
def searchWebItems (items : List (JValue × JValue × JValue)) : List JValue :=
  items.map (fun t => .obj [("title", t.1), ("url", t.2.1), ("snippet", t.2.2)])

/-- The URL fallback scan in the `EXTRACT_GITHUB_LINKS` branch
(`for result in state["web_search_results"]: if result.get("url"): ...`);
`.exn` models the `AttributeError` on a non-dict entry (caught by
`_execute_action`'s `try`). -/
def scanUrls : List JValue → PyRes JValue
  | [] => .ok (.str "")
  | .obj fs :: rest =>
      match dGet fs "url" with
      | some v => if jTruthy v then .ok v else scanUrls rest
      | none => scanUrls rest
  | _ :: _ => .exn

/-- The message returned by the `GENERATE_REPORT` branch when no ranked
repositories exist. -/
def noRepoExecMsg (domain : String) : String :=
  "未能为领域 '" ++ domain ++ "' 找到相关的GitHub仓库。请尝试使用其他关键词或领域名称。"

/-- `AwesomeAgentLogic._execute_action(action, params, state)`.  Total: its
`try` converts any raised error into `None` (`.pynone`).  Network calls are
oracle values; `params.get(...)` on a non-dict params value raises, hence
`.pynone` in those branches. -/
def executeAction (ora : StepOracle) (log : ℚ → ℚ) (now : Int)
    (a : JValue) (p : JValue) (s : AgentState) : ExecRes :=
  if jeq a (.str "GENERATE_KEYWORDS") then
    .list (generate_keywords ora.kwOut)
  else if jeq a (.str "SEARCH_GITHUB") then
    match p with
    | .obj pf =>
        let kws := dGetD pf "keywords" (.arr s.keywords)
        if !jTruthy kws then .list [] else .list ora.githubSearch
    | _ => .pynone
  else if jeq a (.str "GENERATE_WEB_QUERIES") then
    .list (generate_web_queries s.domain ora.wqOut)
  else if jeq a (.str "SEARCH_WEB") then
    match p with
    | .obj _ => .list (searchWebItems ora.webItems)
    | _ => .pynone
  else if jeq a (.str "EXTRACT_GITHUB_LINKS") then
    match p with
    | .obj pf =>
        let url := dGetD pf "url" (.str "")
        if jTruthy url then .list (ora.linksOut.map JValue.str)
        else
          match scanUrls s.web_search_results with
          | .exn => .pynone
          | .ok u =>
              if jTruthy u then .list (ora.linksOut.map JValue.str) else .list []
    | _ => .pynone
  else if jeq a (.str "GET_REPO_DETAILS") then
    match p with
    | .obj pf =>
        let ru := dGetD pf "repo_url" (.str "")
        if !jTruthy ru then .dict [] else .dict (ora.detailsFor ru)
    | _ => .pynone
  else if jeq a (.str "CALCULATE_SCORES") then
    .list (execCalcScores log now ora.detailsFor s)
  else if jeq a (.str "GENERATE_REPORT") then
    if s.ranked_repos.isEmpty then .strv (noRepoExecMsg s.domain)
    else
      match generate_final_report ora.reportOut s.ranked_repos s.domain with
      | some rep => .strv rep
      | none => .pynone
  else
    .pynone   -- `COMPLETE` and unknown actions both return None

/-- The dedup merge of `EXTRACT_GITHUB_LINKS` results into
`candidate_repos` (`if url and url not in candidate_repos`). -/
def mergeLinks (cand : List JValue) (links : List JValue) : List JValue :=
  links.foldl
    (fun acc u =>
      if jTruthy u && !acc.any (fun v => jeq v u) then acc ++ [u] else acc)
    cand

/-- `AwesomeAgentLogic._update_state(state, action, result)`: each branch
fires only for a truthy result; `_execute_action` returns a list for the
list-valued actions, a dict for `GET_REPO_DETAILS` and a string for
`GENERATE_REPORT`, which fixes the result shapes seen here. -/
def updateState (s : AgentState) (a : JValue) (r : ExecRes) : AgentState :=
  if jeq a (.str "GENERATE_KEYWORDS") && execTruthy r then
    match r with
    | .list xs => { s with keywords := xs }
    | _ => s
  else if jeq a (.str "SEARCH_GITHUB") && execTruthy r then
    match r with
    | .list xs => { s with github_repos := xs }
    | _ => s
  else if jeq a (.str "GENERATE_WEB_QUERIES") && execTruthy r then
    match r with
    | .list xs => { s with web_queries := some xs }
    | _ => s
  else if jeq a (.str "SEARCH_WEB") && execTruthy r then
    match r with
    | .list xs => { s with web_search_results := xs }
    | _ => s
  else if jeq a (.str "EXTRACT_GITHUB_LINKS") && execTruthy r then
    match r with
    | .list xs => { s with candidate_repos := mergeLinks s.candidate_repos xs }
    | _ => s
  else if jeq a (.str "GET_REPO_DETAILS") && execTruthy r then
    match r with
    | .dict fs =>
        match dGet fs "url" with
        | some u =>
            if jTruthy u && !s.candidate_repos.any (fun v => jeq v u) then
              { s with candidate_repos := s.candidate_repos ++ [u] }
            else s
        | none => s
    | _ => s
  else if jeq a (.str "CALCULATE_SCORES") && execTruthy r then
    match r with
    | .list xs => { s with ranked_repos := xs }
    | _ => s
  else if jeq a (.str "GENERATE_REPORT") && execTruthy r then
    match r with
    | .strv rep => { s with final_report := rep }
    | _ => s
  else s

/-- `AwesomeAgentLogic._summarize_result(result)`. -/
def summarizeResult : ExecRes → String
  | .pynone => "无结果"
  | .list xs => "获取了 " ++ toString xs.length ++ " 个项目"
  | .dict fs =>
      "获取了包含 " ++ String.intercalate ", " ((fs.map Prod.fst).take 3) ++
        (if fs.length > 3 then " 等" else "") ++ " 的对象"
  | .strv t =>
      if t.length > 100 then "生成了一段长文本 (" ++ toString t.length ++ " 字符)"
      else "结果: " ++ t

/-- How the `while` loop of `run` ended. -/
inductive ExitKind where
  | completed   -- the decided action was COMPLETE (break)
  | exhausted   -- `iterations` reached `max_iterations = 10`
  | raised      -- an exception escaped the loop body (caught by `run`)
deriving DecidableEq, Repr

structure LoopRes where
  kind : ExitKind
  state : AgentState
  hist : List HistEntry

/-- The `while iterations < max_iterations` loop of `AwesomeAgentLogic.run`:
decide, break on `COMPLETE`, execute, fold the result into the state, append
a history entry and remember `self.last_action`.  `ora i` supplies the
collaborator replies of iteration `i`; on `.raised`, the state and history
reflect the moment the exception escaped. -/
def loopRun (ora : Nat → StepOracle) (log : ℚ → ℚ) (now : Int) :
    Nat → Nat → AgentState → List HistEntry → Option JValue → LoopRes
  | _, 0, s, h, _ => ⟨.exhausted, s, h⟩
  | i, fuel + 1, s, h, la =>
      match decideNextAction s h (ora i).llmDecide la with
      | .exn => ⟨.raised, s, h⟩
      | .ok none => ⟨.raised, s, h⟩  -- unpacking `None` raises TypeError
      | .ok (some (a, p)) =>
          if jeq a (.str "COMPLETE") then ⟨.completed, s, h⟩
          else
            let r := executeAction (ora i) log now a p s
            let s2 := updateState s a r
            let h2 := h ++ [⟨a, p, summarizeResult r⟩]
            loopRun ora log now (i + 1) fuel s2 h2 (some a)

/-- The templated no-result message used as the *default* of
`state.get("final_report", ...)` on the last line of `run`. -/
def noResultsMsg (domain : String) : String :=
  "未能为 '" ++ domain ++ "' 找到相关的GitHub仓库。"

/-- `AwesomeAgentLogic.run(domain)` with the final state exposed.

`planOk` is `False` when `_plan_execution` raises; `exnMsg` abstracts the
`str(e)` text of whatever exception the top-level handler caught;
`postReport` is the composer reply of the post-loop fallback call.  The
returned snapshot is `none` exactly on the exception path.

The last line of the source is `state.get("final_report", <templated
message>)`: the `final_report` key is created at initialization and never
deleted, so the lookup always finds it and the templated default is
unreachable — the embedding therefore returns the field itself. -/
def runAgentFull (log : ℚ → ℚ) (now : Int) (exnMsg : String) (planOk : Bool)
    (postReport : Option String) (ora : Nat → StepOracle) (domain : String) :
    String × Option AgentState :=
  if !planOk then ("搜索过程中出错: " ++ exnMsg, none)
  else
    match loopRun ora log now 0 10 (initState domain) [] none with
    | ⟨.raised, _, _⟩ => ("搜索过程中出错: " ++ exnMsg, none)
    | ⟨_, s, _⟩ =>
        if s.final_report.isEmpty && !s.ranked_repos.isEmpty then
          match generate_final_report postReport s.ranked_repos domain with
          | some rep => (rep, some { s with final_report := rep })
          | none => ("搜索过程中出错: " ++ exnMsg, none)
        else (s.final_report, some s)

/-- `AwesomeAgentLogic.run(domain)`: the string the caller receives. -/
def runAgent (log : ℚ → ℚ) (now : Int) (exnMsg : String) (planOk : Bool)
    (postReport : Option String) (ora : Nat → StepOracle) (domain : String) :
    String :=
  (runAgentFull log now exnMsg planOk postReport ora domain).1

/-! ### Helper lemmas -/

theorem jeq_str_iff (v : JValue) (u : String) : jeq v (.str u) = true ↔ v = .str u := by
  cases v <;> simp [jeq]

theorem parseTimestamp_ne_empty {ts : String} {dt : PyDateTime}
    (h : parseTimestamp ts = some dt) : ts ≠ "" := by
  intro he
  subst he
  simp [parseTimestamp] at h

theorem repoRecordFs_stars (u n fn de : String) (stars forks : ℕ) (ts lang : String) :
    (if jTruthy (dGetD (repoRecordFs u n fn de stars forks ts lang) "stars" (.num 0)) then
        dGetD (repoRecordFs u n fn de stars forks ts lang) "stars" (.num 0)
      else dGetD (repoRecordFs u n fn de stars forks ts lang) "stargazers_count" (.num 0)) =
      .num stars := by
  by_cases h : (stars : ℚ) = 0 <;>
    simp [repoRecordFs, dGetD, dGet, jTruthy, List.find?, h]

theorem repoRecordFs_forks (u n fn de : String) (stars forks : ℕ) (ts lang : String) :
    (if jTruthy (dGetD (repoRecordFs u n fn de stars forks ts lang) "forks" (.num 0)) then
        dGetD (repoRecordFs u n fn de stars forks ts lang) "forks" (.num 0)
      else dGetD (repoRecordFs u n fn de stars forks ts lang) "forks_count" (.num 0)) =
      .num forks := by
  by_cases h : (forks : ℚ) = 0 <;>
    simp [repoRecordFs, dGetD, dGet, List.find?, jTruthy, h]

theorem calculate_repo_score_record (log : ℚ → ℚ) (now : Int)
    (u n fn de : String) (stars forks : ℕ) (ts lang : String) :
    calculate_repo_score log now (.obj (repoRecordFs u n fn de stars forks ts lang)) =
      (if ts = "" then
        (7/10 * log ((stars : ℚ) + 1) + 3/10 * log ((forks : ℚ) + 1)) * (1/10)
      else
        match parseTimestamp ts with
        | some dt =>
            (7/10 * log ((stars : ℚ) + 1) + 3/10 * log ((forks : ℚ) + 1)) *
              recencyFor (daysDiff now dt)
        | none => 0) := by
  have hst : ((stars : ℚ) + 1 ≤ 0) = False := by
    simp only [eq_iff_iff, iff_false, not_le]
    positivity
  have hfk : ((forks : ℚ) + 1 ≤ 0) = False := by
    simp only [eq_iff_iff, iff_false, not_le]
    positivity
  have hpush : dGetD (repoRecordFs u n fn de stars forks ts lang) "pushed_at" (.str "") =
      .str ts := by
    simp [repoRecordFs, dGetD, dGet, List.find?]
  simp only [calculate_repo_score]
  rw [repoRecordFs_stars, repoRecordFs_forks, hpush]
  by_cases hts : ts = ""
  · subst hts
    simp [asPyNum, hst, hfk, jTruthy]
    intro h
    rw [show "".isEmpty = true from rfl] at h
    cases h
  · simp [asPyNum, hst, hfk, jTruthy, String.isEmpty_iff, hts]

/-! ### Claim C6 -/

/-- C6: for every repository record with a parseable last-push timestamp,
`calculate_repo_score` returns exactly
`(0.7 * ln(stars + 1) + 0.3 * ln(forks + 1)) * recency`, where recency is
the step function of days since the last push (≤30 → 1.0, ≤180 → 0.8,
≤365 → 0.5, ≤730 → 0.2, else 0.05); in particular 5 days ago yields the
factor 1.0 (`math.log` is the abstract parameter `log`). -/
theorem C6_score_formula_parseable (log : ℚ → ℚ) (now : Int)
    (u n fn de : String) (stars forks : ℕ) (ts lang : String) (dt : PyDateTime)
    (hp : parseTimestamp ts = some dt) :
    calculate_repo_score log now (.obj (repoRecordFs u n fn de stars forks ts lang)) =
      (7/10 * log ((stars : ℚ) + 1) + 3/10 * log ((forks : ℚ) + 1)) *
        recencyFor (daysDiff now dt) ∧
    recencyFor 5 = 1 ∧ recencyFor 31 = 8/10 ∧ recencyFor 181 = 1/2 ∧
    recencyFor 366 = 1/5 ∧ recencyFor 731 = 1/20 := by
  refine ⟨?_, rfl, rfl, rfl, rfl, rfl⟩
  rw [calculate_repo_score_record, if_neg (parseTimestamp_ne_empty hp), hp]

/-- Witness for C6: stars = 100, forks = 10, pushed 2025-10-02 with "now" at
2025-10-07 (5 days later, recency factor 1). -/
theorem C6_witness :
    parseTimestamp "2025-10-02T00:00:00Z" = some ⟨2025, 10, 2, 0, 0, 0⟩ ∧
    daysDiff (20368 * 86400) ⟨2025, 10, 2, 0, 0, 0⟩ = 5 ∧
    calculate_repo_score id (20368 * 86400)
        (.obj (repoRecordFs "u" "n" "f" "d" 100 10 "2025-10-02T00:00:00Z" "L")) =
      (7/10 * id (((100 : ℕ) : ℚ) + 1) + 3/10 * id (((10 : ℕ) : ℚ) + 1)) *
        recencyFor (daysDiff (20368 * 86400) ⟨2025, 10, 2, 0, 0, 0⟩) :=
  ⟨rfl, by decide,
    (C6_score_formula_parseable id (20368 * 86400) "u" "n" "f" "d" 100 10
      "2025-10-02T00:00:00Z" "L" ⟨2025, 10, 2, 0, 0, 0⟩ rfl).1⟩

/-! ### Claim C7 -/

/-- C7 counterexample: a record whose `pushed_at` is present but not
parseable gets score `0.0`, not the claimed `0.1 * (0.7*ln(stars+1) +
0.3*ln(forks+1))` (instantiated at `log = const 1` the claimed value is
`1/10 ≠ 0`). -/
theorem C7_counterexample :
    calculate_repo_score (fun _ => 1) 0
        (.obj (repoRecordFs "u" "tools" "o/tools" "" 100 10 "not-a-date" "Py")) = 0 ∧
    (7/10 * (1 : ℚ) + 3/10 * 1) * (1/10) ≠ 0 := by
  constructor
  · rw [calculate_repo_score_record, if_neg (by decide : ¬("not-a-date" = "")),
      show parseTimestamp "not-a-date" = none from rfl]
  · norm_num

/-- C7 (amended): a present-but-unparseable `pushed_at` raises inside
`calculate_repo_score`'s `try`, so the function returns `0.0`; the `0.1`
recency factor applies only when the timestamp is missing/empty. -/
theorem C7_unparseable_amended :
    (∀ (log : ℚ → ℚ) (now : Int) (u n fn de : String) (stars forks : ℕ)
        (ts lang : String), ts ≠ "" → parseTimestamp ts = none →
        calculate_repo_score log now
          (.obj (repoRecordFs u n fn de stars forks ts lang)) = 0) ∧
    (∀ (log : ℚ → ℚ) (now : Int) (u n fn de : String) (stars forks : ℕ)
        (lang : String),
        calculate_repo_score log now
            (.obj (repoRecordFs u n fn de stars forks "" lang)) =
          (7/10 * log ((stars : ℚ) + 1) + 3/10 * log ((forks : ℚ) + 1)) * (1/10)) := by
  constructor
  · intro log now u n fn de stars forks ts lang hts hnone
    rw [calculate_repo_score_record, if_neg hts, hnone]
  · intro log now u n fn de stars forks lang
    rw [calculate_repo_score_record, if_pos rfl]

/-- Witness for C7's amended theorem at a concrete record. -/
theorem C7_witness :
    ("bad-ts" ≠ "" ∧ parseTimestamp "bad-ts" = none ∧
      calculate_repo_score (fun _ => 1) 7
        (.obj (repoRecordFs "w" "x" "y" "z" 3 4 "bad-ts" "Go")) = 0) ∧
    calculate_repo_score (fun _ => 1) 7
        (.obj (repoRecordFs "w" "x" "y" "z" 3 4 "" "Go")) =
      (7/10 * (fun _ => (1 : ℚ)) (((3 : ℕ) : ℚ) + 1) +
        3/10 * (fun _ => (1 : ℚ)) (((4 : ℕ) : ℚ) + 1)) * (1/10) :=
  ⟨⟨by decide, rfl,
      C7_unparseable_amended.1 (fun _ => 1) 7 "w" "x" "y" "z" 3 4 "bad-ts" "Go"
        (by decide) rfl⟩,
    C7_unparseable_amended.2 (fun _ => 1) 7 "w" "x" "y" "z" 3 4 "Go"⟩

/-! ### Interpreter lemmas (for claims C8 and C9) -/

theorem subAt_drop (pat cs : List Char) (j k : Nat) :
    subAt pat (cs.drop j) k = subAt pat cs (j + k) := by
  simp [subAt, List.drop_drop, Nat.add_comm]

theorem hasSub_all_false {pat : List Char} (hne : pat ≠ []) {cs : List Char}
    (h : hasSub pat cs = false) : ∀ i, subAt pat cs i = false := by
  intro i
  by_cases hi : i < cs.length + 1
  · have := List.any_eq_false.mp h i (List.mem_range.mpr hi)
    simpa using this
  · have hdrop : cs.drop i = [] := List.drop_eq_nil_of_le (by omega)
    cases pat with
    | nil => exact absurd rfl hne
    | cons p ps => simp [subAt, hdrop, listStarts]

theorem m2span_none {cs : List Char} (h : '{' ∉ cs) : m2span cs = none := by
  have : cs.findIdx? (· == '{') = none := by
    rw [List.findIdx?_eq_none_iff]
    intro x hx
    simp only [beq_eq_false_iff_ne]
    exact fun he => h (he ▸ hx)
  simp [m2span, this]

theorem m3At_none {cs : List Char}
    (hact : hasSub "\"action\"".data cs = false) (i : Nat) : m3At cs i = none := by
  have hfilter :
      (List.range ((cs.drop (i + 1)).length + 1)).filter
        (fun k => !((cs.drop (i + 1)).take k).contains '{' &&
          subAt "\"action\"".data (cs.drop (i + 1)) k &&
          ((cs.drop (i + 1)).drop (k + 8)).contains '}') = [] := by
    rw [List.filter_eq_nil_iff]
    intro k _
    have hs : subAt "\"action\"".data (cs.drop (i + 1)) k = false := by
      rw [subAt_drop]
      exact hasSub_all_false (by decide) hact _
    simp [hs]
  simp only [m3At, hfilter, List.getLast?_nil]

theorem m3Extract_none {cs : List Char}
    (hact : hasSub "\"action\"".data cs = false) : m3Extract cs = none := by
  rw [m3Extract, List.findSome?_eq_none_iff]
  intro i _
  by_cases h : cs.getD i ' ' == '{' <;> simp [h, m3At_none hact]

theorem listReplaceGo_not_contains {p : Char} {ps repl : List Char} :
    ∀ (fuel : Nat) (cs : List Char), p ∉ cs →
      listReplaceGo (p :: ps) repl fuel cs = cs := by
  intro fuel
  induction fuel with
  | zero => intro cs _; rfl
  | succ n ih =>
      intro cs h
      cases cs with
      | nil => rfl
      | cons c cs2 =>
          have hpc : (p == c) = false := by
            simp only [beq_eq_false_iff_ne]
            exact fun he => h (he ▸ List.mem_cons_self c cs2)
          simp [listReplaceGo, listStarts, hpc,
            ih cs2 (fun hm => h (List.mem_cons_of_mem _ hm))]

theorem fixBraces_id {cs : List Char} (h1 : '{' ∉ cs) (h2 : '}' ∉ cs) :
    fixBraces cs = cs := by
  unfold fixBraces listReplace
  rw [show ("\x7b\x7b".data) = '{' :: "\x7b".data from rfl,
    show ("\x7d\x7d".data) = '}' :: "\x7d".data from rfl,
    listReplaceGo_not_contains _ _ h1, listReplaceGo_not_contains _ _ h2]

theorem m5StrVal_none {key cs : List Char} (hne : key ≠ [])
    (h : hasSub key cs = false) : m5StrVal key cs = none := by
  rw [m5StrVal, List.findSome?_eq_none_iff]
  intro i _
  have := hasSub_all_false hne h i
  simp [this]

theorem m5Build_none {cs : List Char}
    (hact : hasSub "\"action\"".data cs = false) : m5Build cs = none := by
  simp only [m5Build, m5StrVal_none (by decide) hact]

/-! ### Claim C8 -/

/-- C8 counterexample: completely unstructured prose (no braces, no quoted
`action` key) does not always yield the empty dict — when the last executed
action was `GENERATE_KEYWORDS`, strategy 6 returns the hardcoded
`SEARCH_GITHUB` decision instead. -/
theorem C8_counterexample :
    tryParse (some (.str "GENERATE_KEYWORDS")) "I cannot choose a step now." =
      m6AfterKeywords ∧
    jeq m6AfterKeywords (.obj []) = false :=
  ⟨rfl, rfl⟩

/-- C8 (amended): on completely unstructured prose (cleaned text parses as
no JSON value, holds no brace and no quoted `action` key),
`_try_parse_json_from_llm_response` returns the empty dict **provided** the
last executed action is neither `GENERATE_KEYWORDS` nor `SEARCH_GITHUB`;
otherwise the strategy-6 hardcoded transition fires. -/
theorem C8_prose_returns_empty (la : Option JValue) (text : String)
    (hjson : jsonParse ⟨cleanLLMText text⟩ = none)
    (hob : '{' ∉ cleanLLMText text) (hcb : '}' ∉ cleanLLMText text)
    (hact : hasSub "\"action\"".data (cleanLLMText text) = false)
    (hla1 : la ≠ some (.str "GENERATE_KEYWORDS"))
    (hla2 : la ≠ some (.str "SEARCH_GITHUB")) :
    tryParse la text = .obj [] := by
  simp only [tryParse, hjson, m2span_none hob, m3Extract_none hact,
    fixBraces_id hob hcb, m5Build_none hact, Option.bind_none]
  match la with
  | none => rfl
  | some v =>
      have h1 : jeq v (.str "GENERATE_KEYWORDS") = false := by
        rw [← Bool.not_eq_true, jeq_str_iff]
        exact fun he => hla1 (by rw [he])
      have h2 : jeq v (.str "SEARCH_GITHUB") = false := by
        rw [← Bool.not_eq_true, jeq_str_iff]
        exact fun he => hla2 (by rw [he])
      simp [h1, h2]

/-- Witness for C8's amended theorem. -/
theorem C8_witness :
    jsonParse ⟨cleanLLMText "Let us think more."⟩ = none ∧
    '{' ∉ cleanLLMText "Let us think more." ∧
    '}' ∉ cleanLLMText "Let us think more." ∧
    hasSub "\"action\"".data (cleanLLMText "Let us think more.") = false ∧
    tryParse none "Let us think more." = .obj [] :=
  ⟨rfl, by decide, by decide, rfl,
    C8_prose_returns_empty none "Let us think more." rfl (by decide) (by decide)
      rfl (fun h => Option.noConfusion h) (fun h => Option.noConfusion h)⟩

/-! ### Claim C9 -/

/-- C9 counterexample: strategy 1 parses `{"foo": 1}` successfully and the
pipeline terminates with that object even though it has no `action` key —
success of a strategy is not conditioned on the `action` key being
present. -/
theorem C9_counterexample :
    tryParse none "\x7b\"foo\": 1\x7d" = .obj [("foo", .num 1)] ∧
    hasKey "action" [("foo", .num 1)] = false :=
  ⟨rfl, rfl⟩

/-- C9 (amended): each strategy is tried only if the prior one fails to
produce **any** parsed value; a strategy's successful parse is returned
as-is, without checking that it is an object containing an `action` key
(only strategies 3 and 5 require the key by construction of their
patterns).  In particular a strategy-1 success short-circuits the whole
pipeline. -/
theorem C9_first_parse_returned (la : Option JValue) (text : String) (v : JValue)
    (h : jsonParse ⟨cleanLLMText text⟩ = some v) : tryParse la text = v := by
  simp only [tryParse, h]

/-- Witness for C9's amended theorem. -/
theorem C9_witness :
    jsonParse ⟨cleanLLMText "\x7b\"a\": 2\x7d"⟩ = some (.obj [("a", .num 2)]) ∧
    tryParse none "\x7b\"a\": 2\x7d" = .obj [("a", .num 2)] :=
  ⟨rfl, C9_first_parse_returned none "\x7b\"a\": 2\x7d" (.obj [("a", .num 2)]) rfl⟩

/-! ### Claim C3 -/

/-- All data fields of the work state populated (including the
`web_queries` key created mid-run). -/
def allPopulated (s : AgentState) : Prop :=
  s.keywords ≠ [] ∧ s.github_repos ≠ [] ∧ wqTruthy s = true ∧
    s.web_search_results ≠ [] ∧ s.candidate_repos ≠ [] ∧
    s.ranked_repos ≠ [] ∧ s.final_report ≠ ""

/-- C3: the deterministic fallback decision tree is a strict precedence
chain evaluated purely over state contents (it is a function of the state
alone); in particular every state with empty keywords gets
`GENERATE_KEYWORDS`, and every state with all data fields populated
(including the final report) gets `COMPLETE`. -/
theorem C3_fallback_chain :
    (∀ s : AgentState, s.keywords = [] →
        fallbackDecision s = .ok (some (.str "GENERATE_KEYWORDS", .obj []))) ∧
    (∀ s : AgentState, allPopulated s →
        fallbackDecision s = .ok (some (.str "COMPLETE", .obj []))) := by
  constructor
  · intro s h
    simp [fallbackDecision, h]
  · rintro s ⟨h1, h2, h3, h4, h5, h6, h7⟩
    simp [fallbackDecision, h1, h2, h3, h4, h5, h6, h7]

/-- Witness for C3 at concrete states. -/
theorem C3_witness :
    ((initState "x").keywords = [] ∧
      fallbackDecision (initState "x") =
        .ok (some (.str "GENERATE_KEYWORDS", .obj []))) ∧
    (allPopulated ⟨"x", [.str "k"], [.obj []], some [.str "q"],
        [.obj [("url", .str "u")]], [.str "u"], [.obj []], "report"⟩ ∧
      fallbackDecision ⟨"x", [.str "k"], [.obj []], some [.str "q"],
          [.obj [("url", .str "u")]], [.str "u"], [.obj []], "report"⟩ =
        .ok (some (.str "COMPLETE", .obj []))) := by
  have hpop : allPopulated ⟨"x", [.str "k"], [.obj []], some [.str "q"],
      [.obj [("url", .str "u")]], [.str "u"], [.obj []], "report"⟩ :=
    ⟨List.cons_ne_nil _ _, List.cons_ne_nil _ _, rfl, List.cons_ne_nil _ _,
      List.cons_ne_nil _ _, List.cons_ne_nil _ _, by decide⟩
  exact ⟨⟨rfl, C3_fallback_chain.1 (initState "x") rfl⟩,
    ⟨hpop, C3_fallback_chain.2 _ hpop⟩⟩

/-! ### Claim C2 -/

/-- C2 counterexample: a model reply proposing an arbitrary action name
passes the validation (only `GENERATE_REPORT` is checked), so
`_decide_next_action` returns `FLY_TO_MOON` — an action outside the fixed
nine-action enumeration. -/
theorem C2_counterexample :
    decideNextAction (initState "x") []
        (some "\x7b\"action\": \"FLY_TO_MOON\", \"params\": \x7b\x7d, \"reasoning\": \"r\"\x7d")
        none =
      .ok (some (.str "FLY_TO_MOON", .obj [])) ∧
    isEnumAction (.str "FLY_TO_MOON") = false :=
  ⟨rfl, rfl⟩

/-- C2 (amended): when the model path produces nothing (e.g. the LLM call
raised), `_decide_next_action` returns the deterministic fallback — but (a)
a model-proposed action that passes validation is returned verbatim,
possibly outside the enumeration (see the counterexample); (b) the fallback
only ever returns one of the eight enumerated actions it names; and (c) the
fallback yields no action (Python `None`, making the caller's unpacking
raise) or raises itself exactly in states where web results exist, the
candidate pool is empty, and the first web result is not a dict carrying a
`"url"` key. -/
theorem C2_decide_contract_amended :
    (∀ (s : AgentState) (h : List HistEntry) (la : Option JValue),
        summaryRaises s = false → historyRaises h = false →
        decideNextAction s h none la = fallbackDecision s) ∧
    (∀ (s : AgentState) (a p : JValue),
        fallbackDecision s = .ok (some (a, p)) → isEnumAction a = true) ∧
    (∀ s : AgentState,
        fallbackDecision s = .ok none ∨ fallbackDecision s = .exn →
        s.keywords ≠ [] ∧ s.github_repos ≠ [] ∧ wqTruthy s = true ∧
          s.web_search_results ≠ [] ∧ s.candidate_repos = [] ∧
          ∀ fs, s.web_search_results.head? = some (.obj fs) →
            hasKey "url" fs = false) := by
  refine ⟨?_, ?_, ?_⟩
  · intro s h la hs hh
    simp [decideNextAction, hs, hh]
  · intro s a p hfb
    unfold fallbackDecision at hfb
    repeat' split at hfb
    all_goals simp_all [isEnumAction, nineActionNames]
    all_goals obtain ⟨ha, hp⟩ := hfb
    all_goals subst ha
    all_goals simp [jeq]
  · intro s hor
    have hfb : fallbackDecision s = .ok none ∨ fallbackDecision s = .exn := hor
    unfold fallbackDecision at hfb
    repeat' split at hfb
    all_goals simp_all [List.isEmpty_iff, wqTruthy]

/-- Witness for C2's amended theorem at a concrete state. -/
theorem C2_witness :
    summaryRaises (initState "w") = false ∧ historyRaises [] = false ∧
    decideNextAction (initState "w") [] none none = fallbackDecision (initState "w") :=
  ⟨rfl, rfl, C2_decide_contract_amended.1 (initState "w") [] none rfl rfl⟩

/-! ### Claim C4 -/

/-- Oracle for the C4 counterexample: the decide call always raises, and the
keyword generator's model replies with the JSON list `[1, 2]` — a valid
list, so it is accepted as `keywords`. -/
def oraBadKeywords : Nat → StepOracle := fun _ =>
  ⟨none, some "[1, 2]", none, [], [], [], fun _ => [], none⟩

/-- C4 counterexample: with non-string keywords accepted in iteration 1, the
next decision raises while formatting the state summary, so the loop
terminates by a propagated exception after a single dispatch — neither by a
decided COMPLETE nor by bound exhaustion. -/
theorem C4_counterexample :
    (loopRun oraBadKeywords id 0 0 10 (initState "x") [] none).kind = .raised ∧
    (loopRun oraBadKeywords id 0 0 10 (initState "x") [] none).kind ≠ .completed ∧
    (loopRun oraBadKeywords id 0 0 10 (initState "x") [] none).kind ≠ .exhausted ∧
    (loopRun oraBadKeywords id 0 0 10 (initState "x") [] none).hist.length = 1 :=
  ⟨rfl, by decide, by decide, rfl⟩

theorem loopRun_hist_le (ora : Nat → StepOracle) (log : ℚ → ℚ) (now : Int) :
    ∀ (fuel i : Nat) (s : AgentState) (h : List HistEntry) (la : Option JValue),
      (loopRun ora log now i fuel s h la).hist.length ≤ h.length + fuel := by
  intro fuel
  induction fuel with
  | zero => intro i s h la; simp [loopRun]
  | succ n ih =>
      intro i s h la
      cases hd : decideNextAction s h (ora i).llmDecide la with
      | exn => simp [loopRun, hd]
      | ok val =>
          cases val with
          | none => simp [loopRun, hd]
          | some ap =>
              obtain ⟨a, p⟩ := ap
              by_cases hc : jeq a (.str "COMPLETE") = true
              · simp [loopRun, hd, hc]
              · simp only [loopRun, hd, hc, Bool.false_eq_true, if_false]
                have := ih (i + 1)
                  (updateState s a (executeAction (ora i) log now a p s))
                  (h ++ [⟨a, p, summarizeResult (executeAction (ora i) log now a p s)⟩])
                  (some a)
                simp only [List.length_append, List.length_cons, List.length_nil] at this
                omega

/-- C4 (amended): the orchestration loop performs at most 10 dispatch
iterations, and a decided COMPLETE breaks immediately with no execution, no
state update and no history entry; but termination can also happen through
an exception escaping the loop body (converted to an error string by
`run`'s top-level handler), as the counterexample shows. -/
theorem C4_loop_bound_amended :
    (∀ (ora : Nat → StepOracle) (log : ℚ → ℚ) (now : Int) (domain : String),
        (loopRun ora log now 0 10 (initState domain) [] none).hist.length ≤ 10) ∧
    (∀ (ora : Nat → StepOracle) (log : ℚ → ℚ) (now : Int) (i fuel : Nat)
        (s : AgentState) (h : List HistEntry) (la : Option JValue) (p : JValue),
        decideNextAction s h (ora i).llmDecide la = .ok (some (.str "COMPLETE", p)) →
        loopRun ora log now i (fuel + 1) s h la = ⟨.completed, s, h⟩) := by
  constructor
  · intro ora log now domain
    simpa using loopRun_hist_le ora log now 10 0 (initState domain) [] none
  · intro ora log now i fuel s h la p hd
    simp [loopRun, hd, jeq]

/-- Oracle for the C4/C5 witnesses: the model immediately decides
COMPLETE. -/
def oraComplete : Nat → StepOracle := fun _ =>
  ⟨some "\x7b\"action\": \"COMPLETE\", \"params\": \x7b\x7d\x7d",
    none, none, [], [], [], fun _ => [], none⟩

/-- Witness for C4's amended theorem. -/
theorem C4_witness :
    decideNextAction (initState "y") [] (oraComplete 0).llmDecide none =
      .ok (some (.str "COMPLETE", .obj [])) ∧
    loopRun oraComplete id 0 0 9 (initState "y") [] none =
      ⟨.completed, initState "y", []⟩ :=
  ⟨rfl, C4_loop_bound_amended.2 oraComplete id 0 0 8 (initState "y") [] none
    (.obj []) rfl⟩

/-! ### Claim C5 -/

/-- The §3 invariant: `rankedRepos` is non-empty whenever `finalReport` is
non-empty. -/
def reportInv (s : AgentState) : Prop :=
  s.final_report ≠ "" → s.ranked_repos ≠ []

theorem fallback_report_ranked {s : AgentState} {a p : JValue}
    (h : fallbackDecision s = .ok (some (a, p)))
    (hga : jeq a (.str "GENERATE_REPORT") = true) : s.ranked_repos ≠ [] := by
  rw [jeq_str_iff] at hga
  subst hga
  unfold fallbackDecision at h
  repeat' split at h
  all_goals simp_all [List.isEmpty_iff]

theorem validate_report_ranked {s : AgentState} {v : JValue} {a p : JValue}
    (h : validateDecision s v = some (a, p))
    (hga : jeq a (.str "GENERATE_REPORT") = true) : s.ranked_repos ≠ [] := by
  cases v with
  | obj fs =>
      have h0 : (if !fs.isEmpty && hasKey "action" fs then
          (if !jeq (dGetD fs "action" (.str "")) (.str "GENERATE_REPORT")
              || !s.ranked_repos.isEmpty then
            some (dGetD fs "action" (.str ""), dGetD fs "params" (.obj []))
          else none)
        else none) = some (a, p) := h
      by_cases h1 : (!fs.isEmpty && hasKey "action" fs) = true
      · rw [if_pos h1] at h0
        by_cases h2 : (!jeq (dGetD fs "action" (.str "")) (.str "GENERATE_REPORT")
            || !s.ranked_repos.isEmpty) = true
        · rw [if_pos h2] at h0
          injection h0 with h3
          injection h3 with ha hp
          rw [← ha] at hga
          rw [hga] at h2
          simpa [List.isEmpty_iff] using h2
        · rw [if_neg h2] at h0
          cases h0
      · rw [if_neg h1] at h0
        cases h0
  | null => exact Option.noConfusion h
  | bool b => exact Option.noConfusion h
  | num q => exact Option.noConfusion h
  | str t => exact Option.noConfusion h
  | arr xs => exact Option.noConfusion h

theorem decide_report_ranked {s : AgentState} {h : List HistEntry}
    {resp : Option String} {la : Option JValue} {a p : JValue}
    (hd : decideNextAction s h resp la = .ok (some (a, p)))
    (hga : jeq a (.str "GENERATE_REPORT") = true) : s.ranked_repos ≠ [] := by
  unfold decideNextAction at hd
  split at hd
  · cases hd
  · cases resp with
    | none => exact fallback_report_ranked hd hga
    | some content =>
        have hd2 : (match validateDecision s (tryParse la content) with
            | some r => PyRes.ok (some r)
            | none => fallbackDecision s) = PyRes.ok (some (a, p)) := hd
        rcases hv : validateDecision s (tryParse la content) with _ | r
        · rw [hv] at hd2
          exact fallback_report_ranked hd2 hga
        · rw [hv] at hd2
          obtain ⟨a2, p2⟩ := r
          injection hd2 with h3
          injection h3 with h4
          exact validate_report_ranked (h4 ▸ hv) hga

theorem update_preserves_reportInv {s : AgentState} {a : JValue} {r : ExecRes}
    (hga : jeq a (.str "GENERATE_REPORT") = true → s.ranked_repos ≠ [])
    (hinv : reportInv s) : reportInv (updateState s a r) := by
  unfold updateState
  repeat' split
  all_goals simp_all [reportInv, execTruthy, List.isEmpty_iff]

theorem loopRun_preserves_reportInv (ora : Nat → StepOracle) (log : ℚ → ℚ)
    (now : Int) : ∀ (fuel i : Nat) (s : AgentState) (h : List HistEntry)
      (la : Option JValue), reportInv s →
      reportInv (loopRun ora log now i fuel s h la).state := by
  intro fuel
  induction fuel with
  | zero => intro i s h la hinv; simpa [loopRun] using hinv
  | succ n ih =>
      intro i s h la hinv
      cases hd : decideNextAction s h (ora i).llmDecide la with
      | exn => simpa [loopRun, hd] using hinv
      | ok val =>
          cases val with
          | none => simpa [loopRun, hd] using hinv
          | some ap =>
              obtain ⟨a, p⟩ := ap
              by_cases hc : jeq a (.str "COMPLETE") = true
              · simpa [loopRun, hd, hc] using hinv
              · simp only [loopRun, hd, hc, Bool.false_eq_true, if_false]
                exact ih (i + 1) _ _ (some a)
                  (update_preserves_reportInv
                    (fun hga => decide_report_ranked hd hga) hinv)

/-- C5: at every state reachable by the orchestration loop (for any
collaborator behavior), and in particular in the final state exposed by
`run` — after the loop-exit fallback report synthesis, which is guarded by
`ranked_repos` being non-empty — a non-empty `final_report` implies a
non-empty `ranked_repos`. -/
theorem C5_report_implies_ranked :
    (∀ (ora : Nat → StepOracle) (log : ℚ → ℚ) (now : Int) (fuel i : Nat)
        (s : AgentState) (h : List HistEntry) (la : Option JValue),
        reportInv s → reportInv (loopRun ora log now i fuel s h la).state) ∧
    (∀ (log : ℚ → ℚ) (now : Int) (exnMsg : String) (planOk : Bool)
        (postReport : Option String) (ora : Nat → StepOracle) (domain : String)
        (s2 : AgentState),
        (runAgentFull log now exnMsg planOk postReport ora domain).2 = some s2 →
        reportInv s2) := by
  constructor
  · intro ora log now fuel i s h la hinv
    exact loopRun_preserves_reportInv ora log now fuel i s h la hinv
  · intro log now exnMsg planOk postReport ora domain s2 hs2
    have hloop : reportInv (loopRun ora log now 0 10 (initState domain) [] none).state :=
      loopRun_preserves_reportInv ora log now 10 0 (initState domain) [] none
        (fun hne => absurd rfl hne)
    unfold runAgentFull at hs2
    split at hs2
    · exact Option.noConfusion hs2
    · split at hs2
      · exact Option.noConfusion hs2
      · rename_i sst hhist hnr heq
        rw [heq] at hloop
        split at hs2
        · rename_i hcond
          split at hs2
          · rename_i rep hrep
            have hs3 : some ({ sst with final_report := rep } : AgentState) = some s2 := hs2
            injection hs3 with h4
            subst h4
            intro _
            have h5 := Bool.and_elim_right hcond
            simp only [Bool.not_eq_true'] at h5
            simpa [List.isEmpty_iff] using h5
          · exact Option.noConfusion hs2
        · have hs3 : some sst = some s2 := hs2
          injection hs3 with h4
          subst h4
          exact hloop

/-- Witness for C5 at a concrete run. -/
theorem C5_witness :
    reportInv (initState "z") ∧
    reportInv (loopRun oraComplete id 0 0 10 (initState "z") [] none).state :=
  ⟨fun hne => absurd rfl hne,
    C5_report_implies_ranked.1 oraComplete id 0 10 0 (initState "z") [] none
      (fun hne => absurd rfl hne)⟩

/-! ### Claim C10 -/

/-- Score of a ranked entry (entries are dicts by construction). -/
def objScore : JValue → ℚ
  | .obj fs => scoreKey fs
  | _ => 0

theorem mem_insDesc {x y : List (String × JValue)}
    {l : List (List (String × JValue))} (h : y ∈ insDesc x l) : y = x ∨ y ∈ l := by
  induction l with
  | nil => simpa [insDesc] using h
  | cons z zs ih =>
      by_cases hc : scoreKey z > scoreKey x
      · simp only [insDesc, if_pos hc, List.mem_cons] at h
        rcases h with rfl | h2
        · exact Or.inr (List.mem_cons_self _ _)
        · rcases ih h2 with rfl | h3
          · exact Or.inl rfl
          · exact Or.inr (List.mem_cons_of_mem _ h3)
      · simp only [insDesc, if_neg hc, List.mem_cons] at h
        rcases h with rfl | h2
        · exact Or.inl rfl
        · exact Or.inr (List.mem_cons.mpr h2)

theorem pairwise_insDesc {x : List (String × JValue)}
    {l : List (List (String × JValue))}
    (h : l.Pairwise (fun a b => scoreKey b ≤ scoreKey a)) :
    (insDesc x l).Pairwise (fun a b => scoreKey b ≤ scoreKey a) := by
  induction l with
  | nil => simp [insDesc]
  | cons y ys ih =>
      rcases List.pairwise_cons.mp h with ⟨hy, hys⟩
      by_cases hc : scoreKey y > scoreKey x
      · simp only [insDesc, if_pos hc]
        rw [List.pairwise_cons]
        refine ⟨?_, ih hys⟩
        intro z hz
        rcases mem_insDesc hz with rfl | hzys
        · exact le_of_lt hc
        · exact hy z hzys
      · simp only [insDesc, if_neg hc]
        rw [List.pairwise_cons]
        refine ⟨?_, h⟩
        intro z hz
        rcases List.mem_cons.mp hz with rfl | hzys
        · exact le_of_not_lt hc
        · exact le_trans (hy z hzys) (le_of_not_lt hc)

theorem pairwise_sortScoredDesc (l : List (List (String × JValue))) :
    (sortScoredDesc l).Pairwise (fun a b => scoreKey b ≤ scoreKey a) := by
  induction l with
  | nil => simp [sortScoredDesc]
  | cons x xs ih => exact pairwise_insDesc ih

theorem updateState_calc (s : AgentState) (xs : List JValue) :
    updateState s (.str "CALCULATE_SCORES") (.list xs) =
      if xs.isEmpty then s else { s with ranked_repos := xs } := by
  cases xs with
  | nil => rfl
  | cons x xs2 => rfl

theorem execCalcScores_update_invariant (log : ℚ → ℚ) (now : Int)
    (detailsFor : JValue → List (String × JValue)) (s : AgentState)
    (xs : List JValue) :
    execCalcScores log now detailsFor
        (updateState s (.str "CALCULATE_SCORES") (.list xs)) =
      execCalcScores log now detailsFor s := by
  rw [updateState_calc]
  split <;> rfl

/-- C10: `CALCULATE_SCORES` twice on unchanged input data (same
`github_repos` and `candidate_repos`, same details gateway, same clock)
yields the identical `ranked_repos` — the second pass recomputes the same
list and the update replaces `ranked_repos` wholesale; moreover the result
is truncated to at most 10 entries sorted by descending score. -/
theorem C10_calc_scores_idempotent (log : ℚ → ℚ) (now : Int)
    (detailsFor : JValue → List (String × JValue)) (s : AgentState) :
    execCalcScores log now detailsFor
        (updateState s (.str "CALCULATE_SCORES")
          (.list (execCalcScores log now detailsFor s))) =
      execCalcScores log now detailsFor s ∧
    (updateState (updateState s (.str "CALCULATE_SCORES")
          (.list (execCalcScores log now detailsFor s)))
        (.str "CALCULATE_SCORES")
        (.list (execCalcScores log now detailsFor
          (updateState s (.str "CALCULATE_SCORES")
            (.list (execCalcScores log now detailsFor s)))))).ranked_repos =
      (updateState s (.str "CALCULATE_SCORES")
        (.list (execCalcScores log now detailsFor s))).ranked_repos ∧
    (execCalcScores log now detailsFor s).length ≤ 10 ∧
    (execCalcScores log now detailsFor s).Pairwise
      (fun a b => objScore b ≤ objScore a) := by
  refine ⟨execCalcScores_update_invariant log now detailsFor s _, ?_, ?_, ?_⟩
  · rw [execCalcScores_update_invariant log now detailsFor s]
    rw [updateState_calc s (execCalcScores log now detailsFor s)]
    split
    · rw [updateState_calc]
      split <;> rfl
    · rw [updateState_calc]
      split
      · rename_i hne hemp
        exact absurd hemp hne
      · rfl
  · simp only [execCalcScores]
    split
    · simp
    · simp only [List.length_map]
      simp [List.length_take_le]
  · simp only [execCalcScores]
    split
    · simp
    · refine List.Pairwise.map _ (fun a b hab => ?_)
        (((pairwise_sortScoredDesc _).sublist (List.take_sublist 10 _)))
      simpa [objScore] using hab

/-! ### Claim C1 -/

/-- Oracle for the C1 trace: the decide model always raises (fallback
chooses `GENERATE_KEYWORDS` forever), and the keyword model replies with
the empty JSON list, so no state field ever becomes populated. -/
def oraAllFail : Nat → StepOracle := fun _ =>
  ⟨none, some "[]", none, [], [], [], fun _ => [], none⟩

/-- C1: when the loop exhausts its 10 iterations with nothing accumulated
(no ranked repositories, no report), `run` returns the **empty string**, not
the templated no-results message: the last line is
`state.get("final_report", <message>)` and the `final_report` key always
exists (initialized to `""`), so the templated default is dead code. -/
theorem C1_run_returns_empty_string :
    runAgent id 0 "err" true none oraAllFail "x" = "" ∧
    noResultsMsg "x" ≠ "" :=
  ⟨rfl, by decide⟩
